import Mathlib

/-!
Verification of the hlds_exporter polling engine (src/hlds.rs, src/main.rs)
against its natural-language specification.

Bytes are modelled as `Nat` (values below 256 on the wire); datagrams are
`List Nat`.  Machine integers read from the wire are `Int` with explicit
two's-complement reduction.  Fallible decoding returns `Option`.
Wall-clock instants are abstract `Nat` time points; `Instant::elapsed` at
time `now` for a stored instant `t` is `now - t`, and `Duration::from_secs 5`
is the threshold `5` in the same units.
-/

namespace Hlds

/-- The constant `A2S_INFO` from src/hlds.rs: `\xFF\xFF\xFF\xFF\x54` followed
by the ASCII bytes of "Source Engine Query" and a single 0 terminator. -/
def A2S_INFO : List Nat :=
  [255, 255, 255, 255, 0x54,
   83, 111, 117, 114, 99, 101, 32,
   69, 110, 103, 105, 110, 101, 32,
   81, 117, 101, 114, 121, 0]

/-- The Info reply tag byte `S2A_INFO = 0x49`. -/
def S2A_INFO : Nat := 0x49

/-- The challenge reply tag byte `S2C_CHALLENGE = 0x41`. -/
def S2C_CHALLENGE : Nat := 0x41

/-- The split-packet marker `SPLIT_PACKET = \xFE\xFF\xFF\xFF`. -/
def SPLIT_PACKET : List Nat := [254, 255, 255, 255]

/-- The single-packet header `HEADER = \xFF\xFF\xFF\xFF`. -/
def HEADER : List Nat := [255, 255, 255, 255]

/-- The constant `CHALLENGE_LENGHT = 4` (name kept from the source). -/
def CHALLENGE_LENGHT : Nat := 4

/-- `ServerType` enum from src/hlds.rs. -/
inductive ServerType
  | Dedicated
  | Listen
  | Proxy
deriving DecidableEq, Repr

/-- `impl TryFrom<u8> for ServerType`: accepts the bytes of the characters
d, l, p and rejects everything else. -/
def ServerType.try_from (value : Nat) : Option ServerType :=
  if value = 100 then some .Dedicated
  else if value = 108 then some .Listen
  else if value = 112 then some .Proxy
  else none

/-- `EnvironmentType` enum from src/hlds.rs. -/
inductive EnvironmentType
  | Linux
  | Windows
  | Mac
deriving DecidableEq, Repr

/-- `impl TryFrom<u8> for EnvironmentType`: accepts the bytes of the
characters l, w, m and rejects everything else. -/
def EnvironmentType.try_from (value : Nat) : Option EnvironmentType :=
  if value = 108 then some .Linux
  else if value = 119 then some .Windows
  else if value = 109 then some .Mac
  else none

/-- `Visibility` enum from src/hlds.rs. -/
inductive Visibility
  | Public
  | Private
deriving DecidableEq, Repr

/-- `impl TryFrom<u8> for Visibility`: accepts 0 and 1 only. -/
def Visibility.try_from (value : Nat) : Option Visibility :=
  if value = 0 then some .Public
  else if value = 1 then some .Private
  else none

/-- `Vac` enum from src/hlds.rs. -/
inductive Vac
  | Unsecured
  | Secured
deriving DecidableEq, Repr

/-- `impl TryFrom<u8> for Vac`: accepts 0 and 1 only. -/
def Vac.try_from (value : Nat) : Option Vac :=
  if value = 0 then some .Unsecured
  else if value = 1 then some .Secured
  else none

/-- The `ServerInfo` struct from src/hlds.rs.  Text fields are kept as the
raw byte sequences accumulated before the (lossless on valid input)
`from_utf8_lossy` conversion. -/
structure ServerInfo where
  header : Nat
  protocol : Nat
  name : List Nat
  map : List Nat
  folder : List Nat
  game : List Nat
  id : Int
  players : Nat
  max_players : Nat
  bots : Nat
  server_type : ServerType
  environment : EnvironmentType
  visibility : Visibility
  vac : Vac
  version : List Nat
deriving DecidableEq, Repr

/-- Two's-complement interpretation of a 16-bit little-endian value, as
performed by `read_i16::<LittleEndian>`. -/
def toI16 (v : Nat) : Int :=
  if v % 65536 < 32768 then ((v % 65536 : Nat) : Int)
  else ((v % 65536 : Nat) : Int) - 65536

/-- Two's-complement interpretation of a 32-bit little-endian value, as
performed by `read_i32::<LittleEndian>`. -/
def toI32 (v : Nat) : Int :=
  if v % 4294967296 < 2147483648 then ((v % 4294967296 : Nat) : Int)
  else ((v % 4294967296 : Nat) : Int) - 4294967296

/-- `Cursor::read_u8`: consume one byte, failing at end of buffer. -/
def read_u8 : List Nat → Option (Nat × List Nat)
  | [] => none
  | b :: rest => some (b, rest)

/-- `Cursor::read_i16::<LittleEndian>`: consume two bytes, little-endian,
signed. -/
def read_i16_le : List Nat → Option (Int × List Nat)
  | b0 :: b1 :: rest => some (toI16 (b0 + 256 * b1), rest)
  | _ => none

/-- `Cursor::read_i32::<LittleEndian>`: consume four bytes, little-endian,
signed. -/
def read_i32_le : List Nat → Option (Int × List Nat)
  | b0 :: b1 :: b2 :: b3 :: rest =>
      some (toI32 (b0 + 256 * b1 + 65536 * b2 + 16777216 * b3), rest)
  | _ => none

/-- `read_cstring` from src/hlds.rs: accumulate bytes until the first 0 byte
(consumed) or the end of the buffer, whichever comes first; never fails. -/
def read_cstring : List Nat → List Nat × List Nat
  | [] => ([], [])
  | b :: rest =>
      if b = 0 then ([], rest)
      else (b :: (read_cstring rest).1, (read_cstring rest).2)

/-- `impl TryFrom<Cursor<&[u8]>> for ServerInfo` from src/hlds.rs: the cursor
starts at the beginning of the whole packet, so the 4-byte 0xFF header is
consumed as `_packet_header` (the legacy i32), the tag byte is read as the
`header` field, and the fields follow in source order.  Each enumeration byte
is converted immediately after it is read. -/
def ServerInfo.try_from (packet : List Nat) : Option ServerInfo :=
  match read_i32_le packet with
  | none => none
  | some (_packet_header, s) =>
  match read_u8 s with
  | none => none
  | some (header, s) =>
  match read_u8 s with
  | none => none
  | some (protocol, s) =>
  match read_cstring s with
  | (name, s) =>
  match read_cstring s with
  | (map, s) =>
  match read_cstring s with
  | (folder, s) =>
  match read_cstring s with
  | (game, s) =>
  match read_i16_le s with
  | none => none
  | some (id, s) =>
  match read_u8 s with
  | none => none
  | some (players, s) =>
  match read_u8 s with
  | none => none
  | some (max_players, s) =>
  match read_u8 s with
  | none => none
  | some (bots, s) =>
  match read_u8 s with
  | none => none
  | some (stB, s) =>
  match ServerType.try_from stB with
  | none => none
  | some server_type =>
  match read_u8 s with
  | none => none
  | some (envB, s) =>
  match EnvironmentType.try_from envB with
  | none => none
  | some environment =>
  match read_u8 s with
  | none => none
  | some (visB, s) =>
  match Visibility.try_from visB with
  | none => none
  | some visibility =>
  match read_u8 s with
  | none => none
  | some (vacB, s) =>
  match Vac.try_from vacB with
  | none => none
  | some vac =>
  match read_cstring s with
  | (version, _) =>
  some { header, protocol, name, map, folder, game, id, players,
         max_players, bots, server_type, environment, visibility, vac,
         version }

/-- `GameServer::parse_challenge` from src/hlds.rs: the token is
`packet[5 .. 5 + CHALLENGE_LENGHT]`; a slice `get` fails when the end of the
range exceeds the packet length. -/
def parse_challenge (packet : List Nat) : Option (List Nat) :=
  if HEADER.length + 1 + CHALLENGE_LENGHT ≤ packet.length then
    some ((packet.drop (HEADER.length + 1)).take CHALLENGE_LENGHT)
  else
    none

/-- The observable outcome of `GameServer::parse_reply` and
`GameServer::parse_packet` on one datagram. -/
inductive ReplyAction
  | splitUnsupported
  | malformed
  | noType
  | infoOk (info : ServerInfo)
  | infoFailed
  | challengeSent (token : List Nat)
  | challengeFailed
  | otherTag
deriving DecidableEq, Repr

/-- `GameServer::parse_packet`: drop datagrams that do not start with the
single-packet header or have no tag byte; dispatch on the tag byte; other
tags are a no-op. -/
def parse_packet (packet : List Nat) : ReplyAction :=
  if packet.take HEADER.length ≠ HEADER then .malformed
  else
    match packet[HEADER.length]? with
    | none => .noType
    | some t =>
      if t = S2A_INFO then
        match ServerInfo.try_from packet with
        | some info => .infoOk info
        | none => .infoFailed
      else if t = S2C_CHALLENGE then
        match parse_challenge packet with
        | some c => .challengeSent c
        | none => .challengeFailed
      else .otherTag

/-- `GameServer::parse_reply`: a datagram starting with the split-packet
marker is rejected as unsupported before any other processing. -/
def parse_reply (reply : List Nat) : ReplyAction :=
  if reply.take SPLIT_PACKET.length = SPLIT_PACKET then .splitUnsupported
  else parse_packet reply

/-- One observable effect of the session on its collaborators: a datagram
sent on the socket, a metrics-sink observation, or a challenge token handed
to the session's own challenge channel. -/
inductive Emission
  | sentQuery (msg : List Nat)
  | observeUp (up : Bool)
  | observePlayers (players bots : Nat)
  | observeInfo (name game version : List Nat)
  | challengeOut (token : List Nat)
deriving DecidableEq, Repr

/-- The metrics-sink calls and channel sends produced by
`GameServer::parse_reply` on one datagram (`parse_info` calls
`observe_players` then `observe_info` on a successful decode;
a parsed challenge is sent on `tx_challenge`; everything else emits
nothing). -/
def reply_emissions (reply : List Nat) : List Emission :=
  match parse_reply reply with
  | .infoOk info =>
      [.observePlayers info.players info.bots,
       .observeInfo info.name info.game info.version]
  | .challengeSent c => [.challengeOut c]
  | _ => []

/-- The mutable per-session state of `GameServer`: `last_update` and
`challenge` (the other fields are immutable wiring). -/
structure SessionState where
  last_update : Option Nat
  challenge : List Nat
deriving DecidableEq, Repr

/-- `GameServer::new`: `last_update: None`, `challenge: vec![]`. -/
def initialState : SessionState := { last_update := none, challenge := [] }

/-- The three event sources of the `select!` loop in `GameServer::process`. -/
inductive Event
  | tick
  | challengeMsg (token : List Nat)
  | packet (bytes : List Nat)
deriving DecidableEq, Repr

/-- The liveness computation of the tick arm of `GameServer::process`:
`self.last_update.map_or(false, |update| update.elapsed() < Duration::from_secs(5))`. -/
def compute_up (now : Nat) (last_update : Option Nat) : Bool :=
  match last_update with
  | none => false
  | some t => decide (now - t < 5)

/-- `GameServer::get_info`: the bytes sent on the socket — `A2S_INFO` alone
when the stored challenge is empty, otherwise `A2S_INFO` followed by the
challenge bytes. -/
def get_info_msg (challenge : List Nat) : List Nat :=
  if challenge.isEmpty then A2S_INFO else A2S_INFO ++ challenge

/-- One iteration of the `select!` loop in `GameServer::process`, at abstract
time `now`: the tick arm sends a query then reports liveness; the challenge
arm stores the new token then sends a query with it; the packet arm runs
`parse_reply` and then unconditionally sets `last_update` to now. -/
def process_event (now : Nat) (s : SessionState) (e : Event) :
    SessionState × List Emission :=
  match e with
  | .tick =>
      (s, [.sentQuery (get_info_msg s.challenge),
           .observeUp (compute_up now s.last_update)])
  | .challengeMsg c =>
      ({ s with challenge := c }, [.sentQuery (get_info_msg c)])
  | .packet p =>
      ({ s with last_update := some now }, reply_emissions p)

/-- An Info reply laid out the way the decoder in src/hlds.rs actually reads
it: the 4-byte single-packet header (doubling as the legacy i32 field), the
tag byte 0x49 (doubling as the header-echo field), one protocol byte, four
null-terminated byte strings, the little-endian 2-byte id, the three
counters, the four enumeration bytes, and a null-terminated version. -/
def encodeInfo (protocol : Nat) (name mapF folder game : List Nat)
    (idLo idHi players maxPlayers bots stB envB visB vacB : Nat)
    (version : List Nat) : List Nat :=
  HEADER ++ S2A_INFO :: protocol ::
    (name ++ 0 :: (mapF ++ 0 :: (folder ++ 0 :: (game ++ 0 ::
      (idLo :: idHi :: players :: maxPlayers :: bots ::
        stB :: envB :: visB :: vacB :: (version ++ [0]))))))

/-- An Info reply laid out following the specification text word for word
(section 6 wire format): header, tag 0x49, a separate 4-byte legacy field, a
1-byte header-echo, a 1-byte protocol version, then the same tail as
`encodeInfo`.  Kept distinct from `encodeInfo` so the two layouts can be
compared. -/
def specEncodeInfo (legacy : List Nat) (headerEcho protocol : Nat)
    (name mapF folder game : List Nat)
    (idLo idHi players maxPlayers bots stB envB visB vacB : Nat)
    (version : List Nat) : List Nat :=
  HEADER ++ S2A_INFO :: (legacy ++ headerEcho :: protocol ::
    (name ++ 0 :: (mapF ++ 0 :: (folder ++ 0 :: (game ++ 0 ::
      (idLo :: idHi :: players :: maxPlayers :: bots ::
        stB :: envB :: visB :: vacB :: (version ++ [0])))))))

theorem read_cstring_append (s rest : List Nat) (h : ∀ b ∈ s, b ≠ 0) :
    read_cstring (s ++ 0 :: rest) = (s, rest) := by
  induction s with
  | nil => simp [read_cstring]
  | cons b bs ih =>
      have hb : b ≠ 0 := h b (by simp)
      simp only [List.cons_append, read_cstring, if_neg hb, List.append_eq]
      rw [ih (fun x hx => h x (by simp [hx]))]

/-- Decoding a packet in the code layout reduces to the four enumeration
conversions: all fixed and string fields are extracted exactly, and the
decode as a whole succeeds exactly when every enumeration byte converts. -/
theorem tryFrom_encodeInfo (protocol : Nat) (name mapF folder game : List Nat)
    (idLo idHi players maxPlayers bots stB envB visB vacB : Nat)
    (version : List Nat)
    (hn : ∀ b ∈ name, b ≠ 0) (hm : ∀ b ∈ mapF, b ≠ 0)
    (hf : ∀ b ∈ folder, b ≠ 0) (hg : ∀ b ∈ game, b ≠ 0)
    (hv : ∀ b ∈ version, b ≠ 0) :
    ServerInfo.try_from (encodeInfo protocol name mapF folder game idLo idHi
        players maxPlayers bots stB envB visB vacB version) =
      match ServerType.try_from stB with
      | none => none
      | some st =>
      match EnvironmentType.try_from envB with
      | none => none
      | some env =>
      match Visibility.try_from visB with
      | none => none
      | some vis =>
      match Vac.try_from vacB with
      | none => none
      | some vac =>
      some { header := S2A_INFO, protocol := protocol, name := name,
             map := mapF, folder := folder, game := game,
             id := toI16 (idLo + 256 * idHi), players := players,
             max_players := maxPlayers, bots := bots, server_type := st,
             environment := env, visibility := vis, vac := vac,
             version := version } := by
  simp only [encodeInfo, HEADER, S2A_INFO, List.cons_append, List.nil_append,
    ServerInfo.try_from, read_i32_le, read_u8, read_i16_le,
    read_cstring_append _ _ hn, read_cstring_append _ _ hm,
    read_cstring_append _ _ hf, read_cstring_append _ _ hg,
    read_cstring_append _ _ hv]

/-- The startup loop of `main` in src/main.rs, restricted to what it does
with addresses: walk the configured list in order; an address already seen
is skipped (warned about, `continue` — not an error); otherwise one
`GameServer` is created and the address is recorded.  The result is the list
of addresses that got a session, in creation order.  Addresses are modelled
as an abstract `Nat` identity. -/
def setup_servers (addrs : List Nat) : List Nat :=
  addrs.foldl (fun acc a => if a ∈ acc then acc else acc ++ [a]) []

theorem mem_setup_loop (l : List Nat) (acc : List Nat) (a : Nat) :
    a ∈ l.foldl (fun acc a => if a ∈ acc then acc else acc ++ [a]) acc ↔
      a ∈ acc ∨ a ∈ l := by
  induction l generalizing acc with
  | nil => simp
  | cons x xs ih =>
      simp only [List.foldl_cons]
      by_cases hx : x ∈ acc
      · rw [if_pos hx, ih]
        constructor
        · rintro (h | h)
          · exact Or.inl h
          · exact Or.inr (List.mem_cons_of_mem _ h)
        · rintro (h | h)
          · exact Or.inl h
          · rcases List.mem_cons.mp h with h | h
            · exact Or.inl (h ▸ hx)
            · exact Or.inr h
      · rw [if_neg hx, ih]
        simp only [List.mem_append, List.mem_singleton, List.mem_cons]
        tauto

theorem nodup_setup_loop (l : List Nat) (acc : List Nat) (h : acc.Nodup) :
    (l.foldl (fun acc a => if a ∈ acc then acc else acc ++ [a]) acc).Nodup := by
  induction l generalizing acc with
  | nil => simpa
  | cons x xs ih =>
      simp only [List.foldl_cons]
      by_cases hx : x ∈ acc
      · rw [if_pos hx]
        exact ih _ h
      · rw [if_neg hx]
        refine ih _ (h.append (List.nodup_singleton x) ?_)
        intro b hb hbx
        rw [List.mem_singleton] at hbx
        exact hx (hbx ▸ hb)

theorem parse_challenge_length (p c : List Nat)
    (h : parse_challenge p = some c) : c.length = 4 := by
  revert h
  unfold parse_challenge
  split
  · rename_i hcond
    intro h
    injection h with h
    subst h
    simp only [List.length_take, List.length_drop]
    simp only [HEADER, CHALLENGE_LENGHT, List.length_cons,
      List.length_nil] at hcond ⊢
    omega
  · intro h
    exact absurd h (by simp)

/-- The invariant of claim C9: the stored challenge token is empty or has
length 4. -/
def ChallengeInv (s : SessionState) : Prop :=
  s.challenge = [] ∨ s.challenge.length = 4

/-! ## Claim theorems -/

/-- Claim C1, counterexample: the empty datagram is malformed (it does not
decode as an Info reply), yet handling it in the packet arm of
`GameServer::process` sets `last_update` to the current time — so the
last-success timestamp is not left unchanged on a malformed datagram. -/
theorem C1_counterexample :
    parse_reply [] = ReplyAction.malformed ∧
    initialState.last_update = none ∧
    (process_event 7 initialState (Event.packet [])).1.last_update = some 7 := by
  decide

/-- Claim C1 as amended: handling any inbound datagram — Info, Challenge,
split, or malformed alike — sets `last_update` to the current time; the tick
and inbound-challenge arms leave `last_update` unchanged. -/
theorem C1_last_update_unconditional (now : Nat) (s : SessionState)
    (p c : List Nat) :
    (process_event now s (Event.packet p)).1.last_update = some now ∧
    (process_event now s Event.tick).1.last_update = s.last_update ∧
    (process_event now s (Event.challengeMsg c)).1.last_update =
      s.last_update :=
  ⟨rfl, rfl, rfl⟩

/-- Claim C2, counterexample: a well-formed byte sequence in the layout the
claim describes (tag 0x49 followed by a separate 4-byte legacy field and a
1-byte header-echo before the protocol byte), with name field encoded as the
single byte 65, decodes successfully but with name = [2, 3, 4, 66, 48, 65] —
not the encoded value, because the decoder re-reads the 4-byte 0xFF header
as the legacy field and the tag byte as the header-echo, so every later
read is shifted. -/
theorem C2_counterexample :
    (ServerInfo.try_from (specEncodeInfo [1, 2, 3, 4] 66 48 [65] [66] [67]
        [68] 7 0 5 16 1 100 108 1 1 [49])).map ServerInfo.name =
      some [2, 3, 4, 66, 48, 65] ∧
    some [2, 3, 4, 66, 48, 65] ≠ some [65] := by
  decide

/-- Claim C2 as amended: for every well-formed Info reply in the layout the
decoder actually reads — the 4-byte single-packet header re-read as the
legacy field, the tag byte 0x49 read back as the header-echo, then protocol,
the four null-terminated strings, the little-endian id, the three counters,
four valid enumeration bytes and the null-terminated version — decoding
succeeds and every extracted field equals the value encoded at its
position. -/
theorem C2_decode_exact (protocol : Nat) (name mapF folder game : List Nat)
    (idLo idHi players maxPlayers bots stB envB visB vacB : Nat)
    (version : List Nat)
    (st : ServerType) (env : EnvironmentType) (vis : Visibility) (vac : Vac)
    (hn : ∀ b ∈ name, b ≠ 0) (hm : ∀ b ∈ mapF, b ≠ 0)
    (hf : ∀ b ∈ folder, b ≠ 0) (hg : ∀ b ∈ game, b ≠ 0)
    (hv : ∀ b ∈ version, b ≠ 0)
    (hst : ServerType.try_from stB = some st)
    (henv : EnvironmentType.try_from envB = some env)
    (hvis : Visibility.try_from visB = some vis)
    (hvac : Vac.try_from vacB = some vac) :
    ServerInfo.try_from (encodeInfo protocol name mapF folder game idLo idHi
        players maxPlayers bots stB envB visB vacB version) =
      some { header := S2A_INFO, protocol := protocol, name := name,
             map := mapF, folder := folder, game := game,
             id := toI16 (idLo + 256 * idHi), players := players,
             max_players := maxPlayers, bots := bots, server_type := st,
             environment := env, visibility := vis, vac := vac,
             version := version } := by
  rw [tryFrom_encodeInfo protocol name mapF folder game idLo idHi players
    maxPlayers bots stB envB visB vacB version hn hm hf hg hv,
    hst, henv, hvis, hvac]

/-- Witness for C2_decode_exact at a concrete packet. -/
theorem C2_decode_exact_witness :
    ServerInfo.try_from (encodeInfo 48 [65] [66] [67] [68] 7 0 5 16 1
        100 108 1 1 [49]) =
      some { header := S2A_INFO, protocol := 48, name := [65], map := [66],
             folder := [67], game := [68], id := toI16 (7 + 256 * 0),
             players := 5, max_players := 16, bots := 1,
             server_type := ServerType.Dedicated,
             environment := EnvironmentType.Linux,
             visibility := Visibility.Private, vac := Vac.Secured,
             version := [49] } :=
  C2_decode_exact 48 [65] [66] [67] [68] 7 0 5 16 1 100 108 1 1 [49]
    ServerType.Dedicated EnvironmentType.Linux Visibility.Private Vac.Secured
    (by decide) (by decide) (by decide) (by decide) (by decide)
    (by decide) (by decide) (by decide) (by decide)

/-- Claim C3: on every tick the session emits its query and then the
liveness boolean; the liveness boolean is true exactly when a stored
timestamp exists whose elapsed age is strictly below 5; when the elapsed
age equals 5 exactly, the session reports false (stale). -/
theorem C3_up_iff (now : Nat) (s : SessionState) :
    (process_event now s Event.tick).2 =
      [Emission.sentQuery (get_info_msg s.challenge),
       Emission.observeUp (compute_up now s.last_update)] ∧
    (compute_up now s.last_update = true ↔
      ∃ t, s.last_update = some t ∧ now - t < 5) ∧
    (∀ t, s.last_update = some t → now - t = 5 →
      compute_up now s.last_update = false) := by
  refine ⟨rfl, ?_, ?_⟩
  · cases h : s.last_update with
    | none => simp [compute_up]
    | some t => simp [compute_up]
  · intro t ht h5
    rw [ht]
    simp [compute_up, h5]

/-- Witness for C3_up_iff: at now = 8 with a timestamp of 3 the elapsed age
is exactly 5, and the session reports false. -/
theorem C3_up_iff_witness :
    compute_up 8 (SessionState.mk (some 3) []).last_update = false :=
  (C3_up_iff 8 (SessionState.mk (some 3) [])).2.2 3 rfl rfl

/-- Claim C4: an Info reply whose server-type byte is outside d, l, p, or
whose OS byte is outside l, w, m, or whose visibility or anti-cheat byte is
outside 0 and 1, fails the whole Info decode, and handling such a datagram
produces no metrics emission at all. -/
theorem C4_invalid_enum_fails (protocol : Nat)
    (name mapF folder game : List Nat)
    (idLo idHi players maxPlayers bots stB envB visB vacB : Nat)
    (version : List Nat)
    (hn : ∀ b ∈ name, b ≠ 0) (hm : ∀ b ∈ mapF, b ≠ 0)
    (hf : ∀ b ∈ folder, b ≠ 0) (hg : ∀ b ∈ game, b ≠ 0)
    (hv : ∀ b ∈ version, b ≠ 0)
    (hbad : (stB ≠ 100 ∧ stB ≠ 108 ∧ stB ≠ 112) ∨
            (envB ≠ 108 ∧ envB ≠ 119 ∧ envB ≠ 109) ∨
            (visB ≠ 0 ∧ visB ≠ 1) ∨
            (vacB ≠ 0 ∧ vacB ≠ 1)) :
    ServerInfo.try_from (encodeInfo protocol name mapF folder game idLo idHi
        players maxPlayers bots stB envB visB vacB version) = none ∧
    reply_emissions (encodeInfo protocol name mapF folder game idLo idHi
        players maxPlayers bots stB envB visB vacB version) = [] := by
  have hdecode : ServerInfo.try_from (encodeInfo protocol name mapF folder
      game idLo idHi players maxPlayers bots stB envB visB vacB version) =
      none := by
    rw [tryFrom_encodeInfo protocol name mapF folder game idLo idHi players
      maxPlayers bots stB envB visB vacB version hn hm hf hg hv]
    rcases hbad with ⟨h1, h2, h3⟩ | ⟨h1, h2, h3⟩ | ⟨h1, h2⟩ | ⟨h1, h2⟩
    · simp [ServerType.try_from, h1, h2, h3]
    · cases ServerType.try_from stB <;>
        simp [EnvironmentType.try_from, h1, h2, h3]
    · cases ServerType.try_from stB <;>
        cases EnvironmentType.try_from envB <;>
        simp [Visibility.try_from, h1, h2]
    · cases ServerType.try_from stB <;>
        cases EnvironmentType.try_from envB <;>
        cases Visibility.try_from visB <;>
        simp [Vac.try_from, h1, h2]
  refine ⟨hdecode, ?_⟩
  unfold reply_emissions parse_reply parse_packet
  simp only [encodeInfo, HEADER, SPLIT_PACKET, S2A_INFO, S2C_CHALLENGE,
    List.cons_append, List.nil_append] at hdecode ⊢
  simp [hdecode]

/-- Witness for C4_invalid_enum_fails: server-type byte 120 is outside the
valid set; the whole decode fails and nothing is emitted. -/
theorem C4_invalid_enum_fails_witness :
    ServerInfo.try_from (encodeInfo 48 [65] [66] [67] [68] 7 0 5 16 1
        120 108 1 1 [49]) = none ∧
    reply_emissions (encodeInfo 48 [65] [66] [67] [68] 7 0 5 16 1
        120 108 1 1 [49]) = [] :=
  C4_invalid_enum_fails 48 [65] [66] [67] [68] 7 0 5 16 1 120 108 1 1 [49]
    (by decide) (by decide) (by decide) (by decide) (by decide)
    (Or.inl (by decide))

/-- Claim C5, counterexample: a datagram starting with the split marker is
classified as unsupported, yet delivering it to the session does change the
session state — `last_update` is set to the current time by the packet arm
of `GameServer::process`, so "no state update occurs for it" fails. -/
theorem C5_counterexample :
    parse_reply (SPLIT_PACKET ++ [9, 9]) = ReplyAction.splitUnsupported ∧
    (process_event 3 initialState
      (Event.packet (SPLIT_PACKET ++ [9, 9]))).1 ≠ initialState := by
  decide

/-- Claim C5 as amended: any datagram whose first 4 bytes are the split
marker is classified as unsupported and dropped regardless of the remaining
payload, with no metrics emission and no challenge-token change; the
session does still set its `last_update` timestamp, as it does for every
inbound datagram. -/
theorem C5_split_dropped (rest : List Nat) (now : Nat) (s : SessionState) :
    parse_reply (SPLIT_PACKET ++ rest) = ReplyAction.splitUnsupported ∧
    reply_emissions (SPLIT_PACKET ++ rest) = [] ∧
    (process_event now s (Event.packet (SPLIT_PACKET ++ rest))).1.challenge =
      s.challenge ∧
    (process_event now s
        (Event.packet (SPLIT_PACKET ++ rest))).1.last_update = some now := by
  have h : parse_reply (SPLIT_PACKET ++ rest) =
      ReplyAction.splitUnsupported := by
    unfold parse_reply
    simp [SPLIT_PACKET]
  refine ⟨h, ?_, rfl, rfl⟩
  unfold reply_emissions
  rw [h]

/-- Claim C6: for a challenge reply (header, then tag 0x41, then the token
bytes), parsing fails when fewer than 4 bytes follow the header and tag,
and succeeds when exactly 4 follow, returning exactly those 4 bytes. -/
theorem C6_parse_challenge (t : List Nat) :
    (t.length < 4 →
      parse_challenge (HEADER ++ [S2C_CHALLENGE] ++ t) = none) ∧
    (t.length = 4 →
      parse_challenge (HEADER ++ [S2C_CHALLENGE] ++ t) = some t) := by
  constructor
  · intro h
    unfold parse_challenge
    rw [if_neg]
    simp only [HEADER, CHALLENGE_LENGHT, List.append_assoc, List.cons_append,
      List.length_append, List.length_cons, List.length_nil,
      List.nil_append]
    omega
  · intro h
    unfold parse_challenge
    rw [if_pos]
    · simp [HEADER, S2C_CHALLENGE, CHALLENGE_LENGHT]
      omega
    · simp [HEADER, CHALLENGE_LENGHT]
      omega

/-- Witness for C6_parse_challenge: 2 trailing bytes fail, 4 succeed with
the token equal to those bytes. -/
theorem C6_parse_challenge_witness :
    parse_challenge (HEADER ++ [S2C_CHALLENGE] ++ [1, 2]) = none ∧
    parse_challenge (HEADER ++ [S2C_CHALLENGE] ++ [1, 2, 3, 4]) =
      some [1, 2, 3, 4] :=
  ⟨(C6_parse_challenge [1, 2]).1 (by decide),
   (C6_parse_challenge [1, 2, 3, 4]).2 rfl⟩

/-- Claim C10: a challenge reply with more than 4 bytes after the header and
tag still parses, and the token is exactly the first 4 of those bytes; the
rest is ignored. -/
theorem C10_challenge_extra_bytes (t : List Nat) (h : 4 < t.length) :
    parse_challenge (HEADER ++ [S2C_CHALLENGE] ++ t) = some (t.take 4) := by
  unfold parse_challenge
  rw [if_pos]
  · simp [HEADER, S2C_CHALLENGE, CHALLENGE_LENGHT]
  · simp [HEADER, CHALLENGE_LENGHT]
    omega

/-- Witness for C10_challenge_extra_bytes at a 5-byte tail. -/
theorem C10_challenge_extra_bytes_witness :
    parse_challenge (HEADER ++ [S2C_CHALLENGE] ++ [1, 2, 3, 4, 5]) =
      some (List.take 4 [1, 2, 3, 4, 5]) :=
  C10_challenge_extra_bytes [1, 2, 3, 4, 5] (by decide)

/-- Claim C7: startup creates exactly one session per distinct configured
address — the session list is duplicate-free, contains exactly the
configured addresses, with exactly one session per configured address (the
duplicate occurrences being skipped by the total, non-halting loop) — and
each session sends exactly one query per tick. -/
theorem C7_one_session_per_address (addrs : List Nat) :
    (setup_servers addrs).Nodup ∧
    (∀ a, a ∈ setup_servers addrs ↔ a ∈ addrs) ∧
    (∀ a ∈ addrs, (setup_servers addrs).count a = 1) ∧
    (∀ now s, ((process_event now s Event.tick).2.countP
      (fun e => match e with
        | Emission.sentQuery _ => true
        | _ => false)) = 1) := by
  have hnodup : (setup_servers addrs).Nodup :=
    nodup_setup_loop addrs [] List.nodup_nil
  have hmem : ∀ a, a ∈ setup_servers addrs ↔ a ∈ addrs := by
    intro a
    rw [setup_servers, mem_setup_loop]
    simp
  refine ⟨hnodup, hmem, ?_, ?_⟩
  · intro a ha
    exact List.count_eq_one_of_mem hnodup ((hmem a).mpr ha)
  · intro now s
    rfl

/-- Witness for C7_one_session_per_address: the address 5 configured twice
yields a single session. -/
theorem C7_one_session_per_address_witness :
    (setup_servers [5, 5]).count 5 = 1 ∧ (setup_servers [5, 5]).Nodup :=
  ⟨(C7_one_session_per_address [5, 5]).2.2.1 5 (by decide),
   (C7_one_session_per_address [5, 5]).1⟩

/-- Claim C8: the query preamble `A2S_INFO` is exactly 25 bytes — the 4-byte
header, the tag 0x54, the 19 ASCII bytes of "Source Engine Query" and a
single 0 terminator; `get_info` sends the preamble alone for an empty
challenge and the preamble followed by the raw challenge bytes otherwise;
building the message is total. -/
theorem C8_encode_query (c : List Nat) :
    A2S_INFO.length = 25 ∧
    A2S_INFO = [255, 255, 255, 255] ++ [0x54] ++
      [83, 111, 117, 114, 99, 101, 32, 69, 110, 103, 105, 110, 101, 32,
       81, 117, 101, 114, 121] ++ [0] ∧
    get_info_msg [] = A2S_INFO ∧
    (c ≠ [] → get_info_msg c = A2S_INFO ++ c) := by
  refine ⟨by decide, by decide, rfl, ?_⟩
  intro h
  unfold get_info_msg
  rw [if_neg (by simpa using h)]

/-- Witness for C8_encode_query at a 4-byte challenge. -/
theorem C8_encode_query_witness :
    get_info_msg [1, 2, 3, 4] = A2S_INFO ++ [1, 2, 3, 4] :=
  (C8_encode_query [1, 2, 3, 4]).2.2.2 (by decide)

/-- Claim C9: the stored challenge token is empty in the initial state, and
every event handler — tick, inbound challenge, inbound datagram — preserves
the invariant that the token is empty or exactly 4 bytes long, provided
every inbound challenge token originates from a successful
`parse_challenge` (which is how the only sender, `parse_packet`, produces
them). -/
theorem C9_challenge_invariant :
    ChallengeInv initialState ∧
    ∀ (now : Nat) (s : SessionState) (e : Event), ChallengeInv s →
      (∀ c, e = Event.challengeMsg c → ∃ p, parse_challenge p = some c) →
      ChallengeInv (process_event now s e).1 := by
  refine ⟨Or.inl rfl, ?_⟩
  intro now s e hs he
  cases e with
  | tick => exact hs
  | challengeMsg c =>
      obtain ⟨p, hp⟩ := he c rfl
      exact Or.inr (parse_challenge_length p c hp)
  | packet p => exact hs

/-- Witness for C9_challenge_invariant: stepping the initial state with a
challenge token obtained from a real challenge reply keeps the invariant. -/
theorem C9_challenge_invariant_witness :
    ChallengeInv
      (process_event 0 initialState (Event.challengeMsg [1, 2, 3, 4])).1 :=
  C9_challenge_invariant.2 0 initialState (Event.challengeMsg [1, 2, 3, 4])
    (Or.inl rfl)
    (fun c hc => ⟨HEADER ++ [S2C_CHALLENGE] ++ [1, 2, 3, 4], by
      cases hc
      decide⟩)

end Hlds
